import Mathlib

/-!
Verification of the ingest job queue, the ingest worker loop, and the LLM
retry executor of the Anything-Extract backend.

The queue model is a shallow embedding of
`backend/services/ingest_queue_service.py` over the persisted
`DocumentIngestJob` rows of `backend/core/database.py`; the worker loop embeds
`backend/workers/ingest_worker.py`; the LLM executor embeds
`backend/services/llm_processing_service.py`.  Wall-clock instants are modelled
as natural numbers (seconds); job ids, generated as fresh uuids by the store,
are modelled as naturals drawn from a fresh counter.
-/

namespace AnythingExtract

set_option maxRecDepth 4000

/-- Model of a `DocumentIngestJob` row (`core/database.py`, lines 60-77).
`error_msg`, `worker_id`, `started_at`, `finished_at` are nullable columns.
The `updated_at` bookkeeping column is omitted: no operation reads it. -/
structure JobRec where
  id : Nat
  document_id : String
  status : String
  attempts : Nat
  max_attempts : Nat
  error_msg : Option String
  worker_id : Option String
  processing_mode : String
  created_at : Nat
  started_at : Option Nat
  finished_at : Option Nat
deriving Repr, DecidableEq

/-- The persisted queue store: the list of `DocumentIngestJob` rows plus a
fresh-id counter standing in for uuid generation. -/
structure QState where
  jobs : List JobRec
  nextId : Nat
deriving Repr, DecidableEq

/-- The empty store. -/
def initState : QState := { jobs := [], nextId := 0 }

/-- Configuration of `IngestQueueService.__init__`
(`ingest_queue_service.py`, lines 21-23). -/
structure IngestQueueService where
  max_attempts : Nat
  lock_timeout_seconds : Nat
deriving Repr, DecidableEq

/-- Constructor `IngestQueueService.__init__`: clamps `max(1, ingest_job_max_attempts)`
and `max(30, ingest_job_lock_timeout_seconds)`. -/
def mkIngestQueueService (rawMaxAttempts rawLockTimeout : Nat) : IngestQueueService :=
  { max_attempts := max 1 rawMaxAttempts
    lock_timeout_seconds := max 30 rawLockTimeout }

/-- Query `db.query(DocumentIngestJob).filter(document_id == d).first()`. -/
def findJobByDoc (s : QState) (d : String) : Option JobRec :=
  s.jobs.find? (fun j => j.document_id == d)

/-- Query `db.query(DocumentIngestJob).filter(id == i).first()`. -/
def findJobById (s : QState) (i : Nat) : Option JobRec :=
  s.jobs.find? (fun j => j.id == i)

/-- An in-place SQL `UPDATE ... WHERE p`: rewrite every row matched by `p`
with `f`, leave the rest untouched. -/
def updateJobs (p : JobRec → Bool) (f : JobRec → JobRec) (l : List JobRec) : List JobRec :=
  l.map (fun j => if p j then f j else j)

/-- Field resets applied by `enqueue_document` to an existing row
(`ingest_queue_service.py`, lines 42-49).  Note that `attempts` is
left untouched. -/
def enqueueReset (svc : IngestQueueService) (mode : String) (j : JobRec) : JobRec :=
  { j with status := "queued", error_msg := none, processing_mode := mode,
           worker_id := none, finished_at := none, started_at := none,
           max_attempts := svc.max_attempts }

/-- The fresh row created by `enqueue_document` when no job exists for the
document (`ingest_queue_service.py`, lines 51-58). -/
def newJob (svc : IngestQueueService) (id : Nat) (d mode : String) (now : Nat) : JobRec :=
  { id := id, document_id := d, status := "queued", attempts := 0,
    max_attempts := svc.max_attempts, error_msg := none, worker_id := none,
    processing_mode := mode, created_at := now, started_at := none, finished_at := none }

/-- Embeds `enqueue_document` (`ingest_queue_service.py`, lines 39-65).  The `mode`
argument is the already-normalized processing mode (`normalize_mode` rejects
anything outside `{queue, immediate}` before the store is touched).  The
side effect on the external `Document` row is outside the model. -/
def enqueue_document (svc : IngestQueueService) (s : QState) (d mode : String)
    (now : Nat) : QState × JobRec :=
  match findJobByDoc s d with
  | some job =>
      ({ s with jobs := updateJobs (fun x => x.id == job.id) (enqueueReset svc mode) s.jobs },
       enqueueReset svc mode job)
  | none =>
      let job := newJob svc s.nextId d mode now
      ({ jobs := s.jobs ++ [job], nextId := s.nextId + 1 }, job)

/-- The staleness filter of `_requeue_stale_processing_jobs`
(`ingest_queue_service.py`, lines 89-98): `status == "processing"`,
`started_at` non-null and `started_at < now - lock_timeout_seconds`
(written additively to avoid truncated subtraction). -/
def staleJob (svc : IngestQueueService) (now : Nat) (j : JobRec) : Bool :=
  j.status == "processing" &&
    (match j.started_at with
     | some t => t + svc.lock_timeout_seconds < now
     | none => false)

/-- The per-row transition of the stale sweep
(`ingest_queue_service.py`, lines 99-116).  The exhausted branch does not
clear `worker_id`. -/
def sweepJob (now : Nat) (j : JobRec) : JobRec :=
  if j.max_attempts ≤ j.attempts then
    { j with status := "failed", error_msg := some "ingest worker timeout",
             finished_at := some now }
  else
    { j with status := "queued", worker_id := none, started_at := none,
             error_msg := some "job timed out in previous worker" }

/-- Embeds `_requeue_stale_processing_jobs` (`ingest_queue_service.py`, lines 88-119). -/
def requeue_stale_processing_jobs (svc : IngestQueueService) (now : Nat)
    (s : QState) : QState :=
  { s with jobs := updateJobs (staleJob svc now) (sweepJob now) s.jobs }

/-- Insertion step of the `ORDER BY created_at ASC` scan ordering. -/
def insertByCreated (j : JobRec) : List JobRec → List JobRec
  | [] => [j]
  | k :: ks => if j.created_at < k.created_at then j :: k :: ks else k :: insertByCreated j ks

/-- Stable sort by `created_at` ascending, modelling the ORDER BY of the scan. -/
def sortByCreated : List JobRec → List JobRec
  | [] => []
  | j :: js => insertByCreated j (sortByCreated js)

/-- The row produced by the conditional claim write
(`ingest_queue_service.py`, lines 139-149): `scanAttempts` is the
`attempts` value of the scanned candidate. -/
def claimUpdate (w : String) (now : Nat) (scanAttempts : Nat) (j : JobRec) : JobRec :=
  { j with status := "processing", worker_id := some w, started_at := some now,
           finished_at := none, error_msg := none, attempts := scanAttempts + 1 }

/-- The candidate loop of `claim_next_job` (`ingest_queue_service.py`,
lines 131-161): for each candidate, a conditional `UPDATE ... WHERE id = c.id
AND status = queued`; if no row matched, move to the next candidate,
otherwise re-query the row by id and return it. -/
def claimCandidates (w : String) (now : Nat) :
    List JobRec → QState → QState × Option JobRec
  | [], s => (s, none)
  | c :: cs, s =>
      match s.jobs.find? (fun j => j.id == c.id && j.status == "queued") with
      | some _ =>
          let s' := { s with
            jobs := updateJobs (fun j => j.id == c.id && j.status == "queued")
              (claimUpdate w now c.attempts) s.jobs }
          (s', findJobById s' c.id)
      | none => claimCandidates w now cs s

/-- The bounded FIFO scan window of `claim_next_job`
(`ingest_queue_service.py`, lines 124-130). -/
def scanWindow (s : QState) : List JobRec :=
  (sortByCreated (s.jobs.filter (fun j => j.status == "queued"))).take 20

/-- Embeds `claim_next_job` (`ingest_queue_service.py`, lines 121-161): sweep stale
leases, scan up to 20 queued jobs oldest-first, claim the first candidate
whose row is still `queued` at write time. -/
def claim_next_job (svc : IngestQueueService) (s : QState) (w : String)
    (now : Nat) : QState × Option JobRec :=
  let s1 := requeue_stale_processing_jobs svc now s
  claimCandidates w now (scanWindow s1) s1

/-- The error-message guard of `_mark_job_failed_or_retry`
(`ingest_queue_service.py`, line 169): `(error_msg or "unknown ingest
error")[:4000]`, i.e. the first 4000 characters, with a falsy message
replaced by the default. -/
def truncateError (e : String) : String :=
  String.mk ((if e = "" then "unknown ingest error" else e).data.take 4000)

/-- The terminal branch of `_mark_job_failed_or_retry`
(`ingest_queue_service.py`, lines 171-178). -/
def failedUpdate (e : String) (now : Nat) (j : JobRec) : JobRec :=
  { j with status := "failed", error_msg := some (truncateError e),
           finished_at := some now, worker_id := none }

/-- The requeue branch of `_mark_job_failed_or_retry`
(`ingest_queue_service.py`, lines 179-185). -/
def requeuedUpdate (e : String) (j : JobRec) : JobRec :=
  { j with status := "queued", error_msg := some (truncateError e),
           worker_id := none, started_at := none }

/-- Embeds `_mark_job_failed_or_retry` (`ingest_queue_service.py`, lines 163-193);
the branch compares against the per-row `max_attempts` column. -/
def mark_job_failed_or_retry (s : QState)
    (job_id : Nat) (e : String) (now : Nat) : QState :=
  match findJobById s job_id with
  | none => s
  | some job =>
      if job.max_attempts ≤ job.attempts then
        { s with jobs := updateJobs (fun x => x.id == job_id) (failedUpdate e now) s.jobs }
      else
        { s with jobs := updateJobs (fun x => x.id == job_id) (requeuedUpdate e) s.jobs }

/-- The row update of the success path of `process_job`
(`ingest_queue_service.py`, lines 206-209). -/
def completedUpdate (now : Nat) (j : JobRec) : JobRec :=
  { j with status := "completed", error_msg := none,
           worker_id := none, finished_at := some now }

/-- The success path of `process_job` (`ingest_queue_service.py`,
lines 203-211): re-query the job by id and mark it completed. -/
def complete_job (s : QState) (job_id : Nat) (now : Nat) : QState :=
  match findJobById s job_id with
  | none => s
  | some _ =>
      { s with jobs := updateJobs (fun x => x.id == job_id) (completedUpdate now) s.jobs }

/-- Field resets applied by `retry_document_job`
(`ingest_queue_service.py`, lines 235-241). -/
def retryReset (svc : IngestQueueService) (j : JobRec) : JobRec :=
  { j with status := "queued", error_msg := none, worker_id := none,
           started_at := none, finished_at := none, attempts := 0,
           max_attempts := svc.max_attempts }

/-- The store after `retry_document_job` resets the found row. -/
def retriedState (svc : IngestQueueService) (job : JobRec) (s : QState) : QState :=
  { s with jobs := updateJobs (fun x => x.id == job.id) (retryReset svc) s.jobs }

/-- Embeds `retry_document_job` (`ingest_queue_service.py`, lines 227-248); the two
`ValueError` messages of the source become `Except.error` values. -/
def retry_document_job (svc : IngestQueueService) (s : QState) (d : String) :
    Except String (QState × JobRec) :=
  match findJobByDoc s d with
  | none => .error "document ingest job not found"
  | some job =>
      if job.status = "failed" ∨ job.status = "completed" then
        .ok (retriedState svc job s, retryReset svc job)
      else
        .error "only failed/completed jobs can be retried"

/-- The operations through which the queue store is ever mutated
(`enqueue_document`, `claim_next_job`, the success path of `process_job`,
`_mark_job_failed_or_retry`, `retry_document_job`). -/
inductive Op where
  | enqueue (d mode : String) (now : Nat)
  | claim (w : String) (now : Nat)
  | complete (job_id : Nat) (now : Nat)
  | fail (job_id : Nat) (e : String) (now : Nat)
  | retry (d : String)
deriving Repr, DecidableEq

/-- Effect of one queue operation on the store; a `retry` whose precondition
fails raises and leaves the store untouched. -/
def applyOp (svc : IngestQueueService) (op : Op) (s : QState) : QState :=
  match op with
  | .enqueue d mode now => (enqueue_document svc s d mode now).1
  | .claim w now => (claim_next_job svc s w now).1
  | .complete i now => complete_job s i now
  | .fail i e now => mark_job_failed_or_retry s i e now
  | .retry d =>
      match retry_document_job svc s d with
      | .ok (s', _) => s'
      | .error _ => s

/-- States reachable from the empty store by any sequence of queue
operations (by any workers and producers). -/
def Reachable (svc : IngestQueueService) (s : QState) : Prop :=
  Relation.ReflTransGen (fun a b => ∃ op, b = applyOp svc op a) initState s

/-- Result record of the LLM executor
(`llm_processing_service.py`, lines 20-31), `LLMWorkflowResult`.
Elapsed times are modelled as natural clock ticks. -/
structure LLMWorkflowResult (T : Type) where
  success : Bool
  parsed_result : Option T
  response_text : String
  attempts : Nat
  retry_count : Nat
  llm_time : Nat
  parse_time : Nat
  last_error : Option String
deriving Repr, DecidableEq

/-- Environment of one `run_with_retry` call: the outcomes of the external
LLM transports per attempt number (`primary` is the LangChain runnable path,
`fallback` the direct provider call of `generate_text`), the caller-supplied
`parse_fn` (raising modelled as `Except.error`) and `validate_fn`, and the
clock ticks consumed by generation and by parse+validate on each attempt. -/
structure LLMEnv (T : Type) where
  primary : Nat → Except String String
  fallback : Nat → Except String String
  genTime : Nat → Nat
  parse_fn : String → Except String T
  validate_fn : T → Bool × Option String
  parseTime : Nat → Nat

/-- Embeds `generate_text` (`llm_processing_service.py`, lines 49-86): try the
runnable, on failure fall back to the direct provider call once, and raise
the second error if both fail.  `StrOutputParser.parse` is the identity on
the returned text (with a falsy response coerced to `""`), so the obtained
text is the transport text. -/
def generate_text {T : Type} (env : LLMEnv T) (attempt : Nat) :
    Except String (String × Nat) :=
  match env.primary attempt with
  | .ok raw => .ok (raw, env.genTime attempt)
  | .error _ =>
      match env.fallback attempt with
      | .ok raw => .ok (raw, env.genTime attempt)
      | .error e2 => .error e2

/-- Python falsy-or on the validator reason
(`llm_processing_service.py`, line 139): `reason or "校验失败"` replaces
both `None` and the empty string by the default. -/
def reasonOrDefault (reason : Option String) : String :=
  match reason with
  | some r => if r = "" then "校验失败" else r
  | none => "校验失败"

/-- The `while attempts < max_retries` loop of `run_with_retry`
(`llm_processing_service.py`, lines 105-149), with `fuel` the remaining
attempts and the accumulator arguments mirroring the local state
(`attempts`, `total_llm_time`, `total_parse_time`, `last_error`,
`last_response_text`, `last_parsed_result`). -/
def run_with_retry_aux {T : Type} (env : LLMEnv T) :
    Nat → Nat → Nat → Nat → Option String → String → Option T →
    Except String (LLMWorkflowResult T)
  | 0, attempts, llmT, parseT, lastErr, lastText, lastParsed =>
      .ok { success := false, parsed_result := lastParsed, response_text := lastText,
            attempts := attempts, retry_count := attempts - 1, llm_time := llmT,
            parse_time := parseT, last_error := lastErr }
  | fuel + 1, attempts, llmT, parseT, _lastErr, _lastText, lastParsed =>
      let att := attempts + 1
      match generate_text env att with
      | .error e => .error e
      | .ok (text, tGen) =>
          let llmT' := llmT + tGen
          let parseT' := parseT + env.parseTime att
          match env.parse_fn text with
          | .error e =>
              run_with_retry_aux env fuel att llmT' parseT'
                (some ("解析异常: " ++ e)) text lastParsed
          | .ok parsed =>
              match env.validate_fn parsed with
              | (true, _) =>
                  .ok { success := true, parsed_result := some parsed,
                        response_text := text, attempts := att,
                        retry_count := att - 1, llm_time := llmT',
                        parse_time := parseT', last_error := none }
              | (false, reason) =>
                  run_with_retry_aux env fuel att llmT' parseT'
                    (some (reasonOrDefault reason)) text (some parsed)

/-- Embeds `run_with_retry` (`llm_processing_service.py`, lines 88-160).
`max_retries` is a Python int, so it is modelled as an integer; a
non-positive budget gives the loop zero iterations. -/
def run_with_retry {T : Type} (env : LLMEnv T) (max_retries : Int) :
    Except String (LLMWorkflowResult T) :=
  run_with_retry_aux env max_retries.toNat 0 0 0 none "" none

/-- Configuration of `IngestWorker.__init__` (`ingest_worker.py`,
lines 16-20): the poll interval is clamped to at least 0.2 s.  Durations are
modelled in centiseconds, so 0.2 s is 20 and the post-job 0.05 s sleep is 5. -/
structure IngestWorker where
  worker_id : String
  poll_interval : Nat
deriving Repr, DecidableEq

/-- Constructor `IngestWorker.__init__`: `max(float(ingest_queue_poll_interval), 0.2)`,
in centiseconds. -/
def mkIngestWorker (wid : String) (rawPollInterval : Nat) : IngestWorker :=
  { worker_id := wid, poll_interval := max rawPollInterval 20 }

/-- Outcome of the external `ingest_document` call inside `process_job`. -/
inductive IngestOutcome where
  | ok
  | error (msg : String)
deriving Repr, DecidableEq

/-- Embeds `process_job` (`ingest_queue_service.py`, lines 195-217): a missing
document or a raised ingest error is turned into
`_mark_job_failed_or_retry`; success marks the job completed. -/
def process_job (s : QState) (j : JobRec) (docExists : Bool)
    (outcome : IngestOutcome) (now : Nat) : QState :=
  if ¬ docExists then
    mark_job_failed_or_retry s j.id "document not found" now
  else
    match outcome with
    | .ok => complete_job s j.id now
    | .error msg => mark_job_failed_or_retry s j.id msg now

/-- One iteration of `IngestWorker.run` (`ingest_worker.py`, lines 27-37):
`process_next_job` claims and, if a job was claimed, processes it; the
iteration then sleeps `0.05 if processed else poll_interval` seconds.  The
returned number is the slept duration in centiseconds. -/
def worker_iteration (svc : IngestQueueService) (w : IngestWorker) (s : QState)
    (now : Nat) (docExists : Bool) (outcome : IngestOutcome) : QState × Nat :=
  match claim_next_job svc s w.worker_id now with
  | (s', none) => (s', w.poll_interval)
  | (s', some j) => (process_job s' j docExists outcome now, 5)

/-- Does the operation target the given document through `enqueue_document`
or `retry_document_job` (the two producer entry points that may requeue a
terminal job)? -/
def opRequeuesDoc (d : String) : Op → Bool
  | .enqueue d' _ _ => d' == d
  | .retry d' => d' == d
  | _ => false

/-- Per-row well-formedness: a processing row has a lease holder, a lease
holder occurs only on processing or failed rows, and a failed row has an
exhausted budget. -/
def JobOk (j : JobRec) : Prop :=
  (j.status = "processing" → j.worker_id ≠ none) ∧
  (j.worker_id ≠ none → j.status = "processing" ∨ j.status = "failed") ∧
  (j.status = "failed" → j.max_attempts ≤ j.attempts)

/-- Store invariant maintained by every queue operation. -/
structure Inv (s : QState) : Prop where
  idBound : ∀ j ∈ s.jobs, j.id < s.nextId
  idNodup : (s.jobs.map JobRec.id).Nodup
  docNodup : (s.jobs.map JobRec.document_id).Nodup
  jobsOk : ∀ j ∈ s.jobs, JobOk j

theorem mem_updateJobs {p : JobRec → Bool} {f : JobRec → JobRec}
    {l : List JobRec} {x : JobRec} :
    x ∈ updateJobs p f l ↔ ∃ j ∈ l, x = if p j then f j else j := by
  constructor
  · intro hx
    rcases List.mem_map.mp hx with ⟨j, hj, heq⟩
    exact ⟨j, hj, heq.symm⟩
  · rintro ⟨j, hj, rfl⟩
    exact List.mem_map.mpr ⟨j, hj, rfl⟩

theorem updateJobs_map_key {α : Type} (k : JobRec → α) (p : JobRec → Bool)
    (f : JobRec → JobRec) (l : List JobRec)
    (hf : ∀ j, p j = true → k (f j) = k j) :
    (updateJobs p f l).map k = l.map k := by
  induction l with
  | nil => rfl
  | cons a t ih =>
      simp only [updateJobs, List.map_cons] at ih ⊢
      by_cases h : p a = true
      · rw [if_pos h, hf a h, ih]
      · rw [if_neg h, ih]

theorem find?_id_map (g : JobRec → JobRec) (hg : ∀ x, (g x).id = x.id)
    (l : List JobRec) (i : Nat) :
    (l.map g).find? (fun x => x.id == i) = (l.find? (fun x => x.id == i)).map g := by
  induction l with
  | nil => rfl
  | cons a t ih =>
      simp only [List.map_cons, List.find?_cons, hg a]
      cases h : (a.id == i) <;> simp [h, ih]

theorem mem_id_unique {l : List JobRec} (h : (l.map JobRec.id).Nodup)
    {a b : JobRec} (ha : a ∈ l) (hb : b ∈ l) (hid : a.id = b.id) : a = b :=
  List.inj_on_of_nodup_map h ha hb hid

theorem mem_doc_unique {l : List JobRec} (h : (l.map JobRec.document_id).Nodup)
    {a b : JobRec} (ha : a ∈ l) (hb : b ∈ l)
    (hd : a.document_id = b.document_id) : a = b :=
  List.inj_on_of_nodup_map h ha hb hd

theorem find?_id_of_nodup {l : List JobRec} (h : (l.map JobRec.id).Nodup)
    {x : JobRec} (hx : x ∈ l) :
    l.find? (fun y => y.id == x.id) = some x := by
  induction l with
  | nil => cases hx
  | cons a t ih =>
      simp only [List.map_cons, List.nodup_cons] at h
      simp only [List.find?_cons]
      cases ha : (a.id == x.id) with
      | true =>
          rcases List.mem_cons.mp hx with rfl | hxt
          · rfl
          · exfalso
            have hax : a.id = x.id := by simpa using ha
            exact h.1 (hax ▸ List.mem_map_of_mem JobRec.id hxt)
      | false =>
          rcases List.mem_cons.mp hx with rfl | hxt
          · simp at ha
          · exact ih h.2 hxt

theorem find?_append_some {l l' : List JobRec} {p : JobRec → Bool} {x : JobRec}
    (h : l.find? p = some x) : (l ++ l').find? p = some x := by
  rw [List.find?_append, h]
  rfl

theorem queued_ne_processing : ("queued" : String) ≠ "processing" := by decide

theorem queued_ne_failed : ("queued" : String) ≠ "failed" := by decide

theorem processing_ne_failed : ("processing" : String) ≠ "failed" := by decide

theorem failed_ne_processing : ("failed" : String) ≠ "processing" := by decide

theorem completed_ne_processing : ("completed" : String) ≠ "processing" := by decide

theorem completed_ne_failed : ("completed" : String) ≠ "failed" := by decide

theorem inv_updateJobs {s : QState} {p : JobRec → Bool} {f : JobRec → JobRec}
    (hkey : ∀ j, p j = true → (f j).id = j.id ∧ (f j).document_id = j.document_id)
    (hok : ∀ j ∈ s.jobs, p j = true → JobOk (f j))
    (h : Inv s) : Inv { s with jobs := updateJobs p f s.jobs } := by
  have hid : (updateJobs p f s.jobs).map JobRec.id = s.jobs.map JobRec.id :=
    updateJobs_map_key _ _ _ _ (fun j hj => (hkey j hj).1)
  have hdoc : (updateJobs p f s.jobs).map JobRec.document_id = s.jobs.map JobRec.document_id :=
    updateJobs_map_key _ _ _ _ (fun j hj => (hkey j hj).2)
  refine ⟨?_, ?_, ?_, ?_⟩
  · intro j hj
    rcases mem_updateJobs.mp hj with ⟨j0, hj0, rfl⟩
    show (if p j0 then f j0 else j0).id < s.nextId
    by_cases hp : p j0 = true
    · rw [if_pos hp, (hkey j0 hp).1]
      exact h.idBound j0 hj0
    · rw [if_neg hp]
      exact h.idBound j0 hj0
  · show ((updateJobs p f s.jobs).map JobRec.id).Nodup
    rw [hid]
    exact h.idNodup
  · show ((updateJobs p f s.jobs).map JobRec.document_id).Nodup
    rw [hdoc]
    exact h.docNodup
  · intro j hj
    rcases mem_updateJobs.mp hj with ⟨j0, hj0, rfl⟩
    by_cases hp : p j0 = true
    · rw [if_pos hp]
      exact hok j0 hj0 hp
    · rw [if_neg hp]
      exact h.jobsOk j0 hj0

theorem jobOk_claimUpdate (w : String) (now k : Nat) (j : JobRec) :
    JobOk (claimUpdate w now k j) := by
  exact ⟨fun _ => by simp [claimUpdate], fun _ => Or.inl rfl,
    fun hst => absurd hst processing_ne_failed⟩

theorem sweepJob_keys (now : Nat) (j : JobRec) :
    (sweepJob now j).id = j.id ∧ (sweepJob now j).document_id = j.document_id := by
  unfold sweepJob
  split <;> exact ⟨rfl, rfl⟩

theorem jobOk_sweepJob (now : Nat) (j : JobRec) : JobOk (sweepJob now j) := by
  unfold sweepJob
  split
  · rename_i hle
    exact ⟨fun hst => absurd hst failed_ne_processing, fun _ => Or.inr rfl, fun _ => hle⟩
  · exact ⟨fun hst => absurd hst queued_ne_processing, fun hw => absurd rfl hw,
      fun hst => absurd hst queued_ne_failed⟩

theorem jobOk_enqueueReset (svc : IngestQueueService) (mode : String) (j : JobRec) :
    JobOk (enqueueReset svc mode j) :=
  ⟨fun hst => absurd hst queued_ne_processing, fun hw => absurd rfl hw,
   fun hst => absurd hst queued_ne_failed⟩

theorem jobOk_retryReset (svc : IngestQueueService) (j : JobRec) :
    JobOk (retryReset svc j) :=
  ⟨fun hst => absurd hst queued_ne_processing, fun hw => absurd rfl hw,
   fun hst => absurd hst queued_ne_failed⟩

theorem jobOk_newJob (svc : IngestQueueService) (id : Nat) (d mode : String) (now : Nat) :
    JobOk (newJob svc id d mode now) :=
  ⟨fun hst => absurd hst queued_ne_processing, fun hw => absurd rfl hw,
   fun hst => absurd hst queued_ne_failed⟩

theorem inv_enqueue (svc : IngestQueueService) (s : QState) (d mode : String)
    (now : Nat) (h : Inv s) : Inv (enqueue_document svc s d mode now).1 := by
  cases hfind : findJobByDoc s d with
  | some job =>
      simp only [enqueue_document, hfind]
      exact inv_updateJobs (fun j _ => ⟨rfl, rfl⟩)
        (fun j _ _ => jobOk_enqueueReset svc mode j) h
  | none =>
      simp only [enqueue_document, hfind]
      have hdocfree : ∀ x ∈ s.jobs, x.document_id ≠ d := by
        intro x hx
        have := List.find?_eq_none.mp hfind x hx
        simpa using this
      refine ⟨?_, ?_, ?_, ?_⟩
      · intro j hj
        rcases List.mem_append.mp hj with hj | hj
        · exact Nat.lt_trans (h.idBound j hj) (Nat.lt_succ_self _)
        · rcases List.mem_singleton.mp hj with rfl
          exact Nat.lt_succ_self _
      · show ((s.jobs ++ [newJob svc s.nextId d mode now]).map JobRec.id).Nodup
        rw [List.map_append, List.nodup_append]
        refine ⟨h.idNodup, List.nodup_singleton _, ?_⟩
        intro a ha hb
        rcases List.mem_map.mp ha with ⟨j, hj, rfl⟩
        have hb' : j.id = s.nextId := by simpa [newJob] using hb
        have := h.idBound j hj
        omega
      · show ((s.jobs ++ [newJob svc s.nextId d mode now]).map JobRec.document_id).Nodup
        rw [List.map_append, List.nodup_append]
        refine ⟨h.docNodup, List.nodup_singleton _, ?_⟩
        intro a ha hb
        rcases List.mem_map.mp ha with ⟨j, hj, rfl⟩
        have hb' : j.document_id = d := by simpa [newJob] using hb
        exact hdocfree j hj hb'
      · intro j hj
        rcases List.mem_append.mp hj with hj | hj
        · exact h.jobsOk j hj
        · rcases List.mem_singleton.mp hj with rfl
          exact jobOk_newJob svc s.nextId d mode now

theorem inv_requeue_stale (svc : IngestQueueService) (now : Nat) (s : QState)
    (h : Inv s) : Inv (requeue_stale_processing_jobs svc now s) :=
  inv_updateJobs (fun j _ => sweepJob_keys now j) (fun j _ _ => jobOk_sweepJob now j) h

theorem inv_claimCandidates (w : String) (now : Nat) :
    ∀ (cands : List JobRec) (s : QState), Inv s → Inv (claimCandidates w now cands s).1 := by
  intro cands
  induction cands with
  | nil => intro s h; exact h
  | cons c cs ih =>
      intro s h
      cases hfind : s.jobs.find? (fun j => j.id == c.id && j.status == "queued") with
      | some cur =>
          simp only [claimCandidates, hfind]
          exact inv_updateJobs (fun j _ => ⟨rfl, rfl⟩)
            (fun j _ _ => jobOk_claimUpdate w now c.attempts j) h
      | none =>
          simp only [claimCandidates, hfind]
          exact ih s h

theorem inv_claim (svc : IngestQueueService) (s : QState) (w : String) (now : Nat)
    (h : Inv s) : Inv (claim_next_job svc s w now).1 :=
  inv_claimCandidates w now _ _ (inv_requeue_stale svc now s h)

theorem inv_complete (s : QState) (i now : Nat) (h : Inv s) :
    Inv (complete_job s i now) := by
  cases hfind : findJobById s i with
  | none => simpa only [complete_job, hfind] using h
  | some job =>
      simp only [complete_job, hfind]
      exact inv_updateJobs (fun j _ => ⟨rfl, rfl⟩)
        (fun j _ _ => ⟨fun hst => absurd hst completed_ne_processing, fun hw => absurd rfl hw,
          fun hst => absurd hst completed_ne_failed⟩) h

theorem inv_fail (s : QState) (i : Nat) (e : String) (now : Nat) (h : Inv s) :
    Inv (mark_job_failed_or_retry s i e now) := by
  cases hfind : findJobById s i with
  | none => simpa only [mark_job_failed_or_retry, hfind] using h
  | some job =>
      have hjob : job ∈ s.jobs := List.mem_of_find?_eq_some hfind
      have hjobid : job.id = i := by simpa using List.find?_some hfind
      by_cases hbranch : job.max_attempts ≤ job.attempts
      · simp only [mark_job_failed_or_retry, hfind, if_pos hbranch]
        refine inv_updateJobs (fun j _ => ⟨rfl, rfl⟩) (fun j hj hp => ?_) h
        have hj_eq : j = job := by
          refine mem_id_unique h.idNodup hj hjob ?_
          rw [hjobid]
          simpa using hp
        refine ⟨fun hst => absurd hst failed_ne_processing, fun hw => absurd rfl hw, fun _ => ?_⟩
        show j.max_attempts ≤ j.attempts
        rw [hj_eq]
        exact hbranch
      · simp only [mark_job_failed_or_retry, hfind, if_neg hbranch]
        exact inv_updateJobs (fun j _ => ⟨rfl, rfl⟩)
          (fun j _ _ => ⟨fun hst => absurd hst queued_ne_processing, fun hw => absurd rfl hw,
            fun hst => absurd hst queued_ne_failed⟩) h

theorem inv_retry (svc : IngestQueueService) (s : QState) (d : String) (h : Inv s) :
    Inv (applyOp svc (.retry d) s) := by
  cases hfind : findJobByDoc s d with
  | none => simpa only [applyOp, retry_document_job, hfind] using h
  | some job =>
      by_cases hst : job.status = "failed" ∨ job.status = "completed"
      · simp only [applyOp, retry_document_job, hfind, if_pos hst]
        exact inv_updateJobs (fun j _ => ⟨rfl, rfl⟩)
          (fun j _ _ => jobOk_retryReset svc j) h
      · simpa only [applyOp, retry_document_job, hfind, if_neg hst] using h

theorem inv_applyOp (svc : IngestQueueService) (op : Op) (s : QState) (h : Inv s) :
    Inv (applyOp svc op s) := by
  cases op with
  | enqueue d mode now => exact inv_enqueue svc s d mode now h
  | claim w now => exact inv_claim svc s w now h
  | complete i now => exact inv_complete s i now h
  | fail i e now => exact inv_fail s i e now h
  | retry d => exact inv_retry svc s d h

theorem inv_initState : Inv initState := by
  refine ⟨?_, ?_, ?_, ?_⟩ <;> simp [initState]

theorem reachable_inv {svc : IngestQueueService} {s : QState}
    (h : Reachable svc s) : Inv s := by
  induction h with
  | refl => exact inv_initState
  | tail _ hbc ih =>
      rcases hbc with ⟨op, rfl⟩
      exact inv_applyOp svc op _ ih

theorem mem_insertByCreated {j x : JobRec} : ∀ {l : List JobRec},
    x ∈ insertByCreated j l ↔ x = j ∨ x ∈ l := by
  intro l
  induction l with
  | nil => simp [insertByCreated]
  | cons k ks ih =>
      unfold insertByCreated
      split
      · simp [List.mem_cons]
      · simp only [List.mem_cons, ih]
        tauto

theorem mem_sortByCreated {x : JobRec} : ∀ {l : List JobRec},
    x ∈ sortByCreated l ↔ x ∈ l := by
  intro l
  induction l with
  | nil => simp [sortByCreated]
  | cons j js ih => simp [sortByCreated, mem_insertByCreated, ih, List.mem_cons]

theorem scanWindow_spec {s : QState} {c : JobRec} (h : c ∈ scanWindow s) :
    c ∈ s.jobs ∧ c.status = "queued" := by
  have h1 : c ∈ sortByCreated (s.jobs.filter (fun j => j.status == "queued")) :=
    List.take_subset _ _ h
  have h2 : c ∈ s.jobs.filter (fun j => j.status == "queued") := mem_sortByCreated.mp h1
  have h3 := List.mem_filter.mp h2
  exact ⟨h3.1, by simpa using h3.2⟩

/-- The store after a successful conditional claim write on candidate row
`pre`. -/
def claimedState (w : String) (now : Nat) (pre : JobRec) (s : QState) : QState :=
  let upd := updateJobs (fun x => x.id == pre.id && x.status == "queued")
    (claimUpdate w now pre.attempts) s.jobs
  { s with jobs := upd }

theorem claimCandidates_none {w : String} {now : Nat} :
    ∀ {cands : List JobRec} {s s' : QState},
    claimCandidates w now cands s = (s', none) → s' = s := by
  intro cands
  induction cands with
  | nil =>
      intro s s' h
      exact (congrArg Prod.fst h).symm
  | cons c cs ih =>
      intro s s' h
      cases hfind : s.jobs.find? (fun j => j.id == c.id && j.status == "queued") with
      | some cur =>
          exfalso
          simp only [claimCandidates, hfind] at h
          have h2 := congrArg Prod.snd h
          simp only at h2
          have hcur_mem : cur ∈ s.jobs := List.mem_of_find?_eq_some hfind
          have hpred := List.find?_some hfind
          rw [Bool.and_eq_true] at hpred
          have hmem : claimUpdate w now c.attempts cur ∈
              updateJobs (fun j => j.id == c.id && j.status == "queued")
                (claimUpdate w now c.attempts) s.jobs := by
            refine mem_updateJobs.mpr ⟨cur, hcur_mem, ?_⟩
            rw [if_pos (by rw [Bool.and_eq_true]; exact hpred)]
          have := List.find?_eq_none.mp h2 _ hmem
          apply this
          show ((claimUpdate w now c.attempts cur).id == c.id) = true
          simpa [claimUpdate] using hpred.1
      | none =>
          simp only [claimCandidates, hfind] at h
          exact ih h

theorem claimCandidates_some {w : String} {now : Nat} :
    ∀ {cands : List JobRec} {s s' : QState} {j : JobRec},
    (∀ c ∈ cands, c ∈ s.jobs) →
    (s.jobs.map JobRec.id).Nodup →
    claimCandidates w now cands s = (s', some j) →
    ∃ pre ∈ s.jobs, pre.status = "queued" ∧
      j = claimUpdate w now pre.attempts pre ∧
      s' = claimedState w now pre s := by
  intro cands
  induction cands with
  | nil =>
      intro s s' j _ _ h
      exact Option.noConfusion (congrArg Prod.snd h)
  | cons c cs ih =>
      intro s s' j hc hnodup h
      cases hfind : s.jobs.find? (fun x => x.id == c.id && x.status == "queued") with
      | none =>
          simp only [claimCandidates, hfind] at h
          exact ih (fun x hx => hc x (List.mem_cons_of_mem c hx)) hnodup h
      | some cur =>
          simp only [claimCandidates, hfind] at h
          have hcur_mem : cur ∈ s.jobs := List.mem_of_find?_eq_some hfind
          have hpred := List.find?_some hfind
          rw [Bool.and_eq_true] at hpred
          have hid : cur.id = c.id := by simpa using hpred.1
          have hc_mem : c ∈ s.jobs := hc c (List.mem_cons_self c cs)
          have hceq : cur = c := mem_id_unique hnodup hcur_mem hc_mem hid
          have hqueued : c.status = "queued" := by
            rw [hceq] at hpred
            simpa using hpred.2
          have hg : ∀ x, ((fun x => if (x.id == c.id && x.status == "queued") = true
              then claimUpdate w now c.attempts x else x) x).id = x.id := by
            intro x
            dsimp only
            split <;> rfl
          have hfind2 : findJobById (claimedState w now c s) c.id
              = some (claimUpdate w now c.attempts c) := by
            have hmap := find?_id_map
              (fun x => if (x.id == c.id && x.status == "queued") = true
                then claimUpdate w now c.attempts x else x) hg s.jobs c.id
            rw [find?_id_of_nodup hnodup hc_mem] at hmap
            refine hmap.trans ?_
            show some (if (c.id == c.id && c.status == "queued") = true
              then claimUpdate w now c.attempts c else c) = _
            rw [if_pos (by simp [hqueued] :
              (c.id == c.id && c.status == "queued") = true)]
          have h1 := congrArg Prod.fst h
          have h2 := congrArg Prod.snd h
          simp only at h1 h2
          have hj : claimUpdate w now c.attempts c = j :=
            Option.some.inj (hfind2.symm.trans h2)
          exact ⟨c, hc_mem, hqueued, hj.symm, h1.symm⟩

theorem claim_next_job_none {svc : IngestQueueService} {s s' : QState}
    {w : String} {now : Nat}
    (h : claim_next_job svc s w now = (s', none)) :
    s' = requeue_stale_processing_jobs svc now s :=
  claimCandidates_none h

theorem claim_next_job_some {svc : IngestQueueService} {s s' : QState}
    {w : String} {now : Nat} {j : JobRec} (hInv : Inv s)
    (h : claim_next_job svc s w now = (s', some j)) :
    ∃ pre ∈ (requeue_stale_processing_jobs svc now s).jobs,
      pre.status = "queued" ∧
      j = claimUpdate w now pre.attempts pre ∧
      s' = claimedState w now pre (requeue_stale_processing_jobs svc now s) :=
  claimCandidates_some (fun _ hc => (scanWindow_spec hc).1)
    (inv_requeue_stale svc now s hInv).idNodup h

/-- Worker `w` holds processing ownership of the job with id `i` in state `s`. -/
def holdsProcessing (s : QState) (w : String) (i : Nat) : Prop :=
  ∃ j ∈ s.jobs, j.id = i ∧ j.status = "processing" ∧ j.worker_id = some w

theorem failed_ne_queued : ("failed" : String) ≠ "queued" := by decide

theorem completed_ne_queued : ("completed" : String) ≠ "queued" := by decide

theorem findJobById_updateJobs (s : QState) (p : JobRec → Bool) (f : JobRec → JobRec)
    (hf : ∀ x, (f x).id = x.id) (i : Nat) :
    findJobById { s with jobs := updateJobs p f s.jobs } i
      = Option.map (fun x => if p x then f x else x) (findJobById s i) := by
  have hg : ∀ x, ((fun x => if p x = true then f x else x) x).id = x.id := by
    intro x
    dsimp only
    split
    · exact hf x
    · rfl
  exact find?_id_map _ hg s.jobs i

/-- Reachability is closed under one more queue operation. -/
theorem reach_step {svc : IngestQueueService} {s : QState} (op : Op)
    (h : Reachable svc s) : Reachable svc (applyOp svc op s) :=
  h.tail ⟨op, rfl⟩

/-- Queue service built from the default configuration
(`maxAttempts = 3`, `leaseTimeout = 30 s`). -/
def svc0 : IngestQueueService := mkIngestQueueService 3 30

/-- Concrete trace: one enqueued document. -/
def qs1 : QState := applyOp svc0 (.enqueue "doc-1" "queue" 0) initState

/-- State `qs1` after worker `w1` claims the job (attempt 1). -/
def qs2 : QState := applyOp svc0 (.claim "w1" 0) qs1

/-- State `qs2` after the worker reports a failure (requeued, attempts 1). -/
def qs3 : QState := applyOp svc0 (.fail 0 "embed timeout" 0) qs2

/-- Second claim cycle (attempt 2). -/
def qs4 : QState := applyOp svc0 (.claim "w1" 0) qs3

/-- Second failure (requeued, attempts 2). -/
def qs5 : QState := applyOp svc0 (.fail 0 "embed timeout" 0) qs4

/-- Third claim (processing, attempts 3, `started_at = 0`). -/
def qs6 : QState := applyOp svc0 (.claim "w1" 0) qs5

/-- A claim by another worker at time 100 first sweeps the stale lease of
`qs6`: attempts 3 ≥ 3, so the job is failed by the sweep. -/
def qs7 : QState := applyOp svc0 (.claim "w2" 100) qs6

/-- State `qs6` after the worker reports a third failure (terminal `failed`). -/
def qs6f : QState := applyOp svc0 (.fail 0 "boom" 1) qs6

theorem reach_qs1 : Reachable svc0 qs1 :=
  Relation.ReflTransGen.single ⟨_, rfl⟩

theorem reach_qs2 : Reachable svc0 qs2 := reach_step _ reach_qs1

theorem reach_qs3 : Reachable svc0 qs3 := reach_step _ reach_qs2

theorem reach_qs4 : Reachable svc0 qs4 := reach_step _ reach_qs3

theorem reach_qs5 : Reachable svc0 qs5 := reach_step _ reach_qs4

theorem reach_qs6 : Reachable svc0 qs6 := reach_step _ reach_qs5

theorem reach_qs7 : Reachable svc0 qs7 := reach_step _ reach_qs6

theorem reach_qs6f : Reachable svc0 qs6f := reach_step _ reach_qs6

/-- The row produced by the first claim in the concrete trace. -/
def cj1 : JobRec :=
  { id := 0, document_id := "doc-1", status := "processing", attempts := 1,
    max_attempts := 3, error_msg := none, worker_id := some "w1",
    processing_mode := "queue", created_at := 0, started_at := some 0,
    finished_at := none }

/-- C1: `claim_next_job` transitions a candidate to `processing` — setting
`worker_id`, `started_at = now` and incrementing `attempts` by exactly one —
only if the row status is still `queued` at write time, and consequently,
over any sequence of queue operations, no reachable state has two workers
simultaneously holding processing ownership of the same job. -/
theorem C1_claim_conditional_write_exclusive :
    (∀ (svc : IngestQueueService) (s s' : QState) (w : String) (now : Nat) (j : JobRec),
      Reachable svc s →
      claim_next_job svc s w now = (s', some j) →
      ∃ pre ∈ (requeue_stale_processing_jobs svc now s).jobs,
        pre.status = "queued" ∧ j.status = "processing" ∧
        j.worker_id = some w ∧ j.started_at = some now ∧
        j.attempts = pre.attempts + 1 ∧ j ∈ s'.jobs) ∧
    (∀ (svc : IngestQueueService) (s : QState) (i : Nat) (w1 w2 : String),
      Reachable svc s → holdsProcessing s w1 i → holdsProcessing s w2 i → w1 = w2) := by
  constructor
  · intro svc s s' w now j hreach hclaim
    obtain ⟨pre, hmem, hq, hj, hs'⟩ := claim_next_job_some (reachable_inv hreach) hclaim
    subst hj
    subst hs'
    refine ⟨pre, hmem, hq, rfl, rfl, rfl, rfl, ?_⟩
    show claimUpdate w now pre.attempts pre ∈
      updateJobs (fun x => x.id == pre.id && x.status == "queued")
        (claimUpdate w now pre.attempts)
        (requeue_stale_processing_jobs svc now s).jobs
    exact mem_updateJobs.mpr ⟨pre, hmem, by rw [if_pos (by simp [hq])]⟩
  · intro svc s i w1 w2 hreach h1 h2
    obtain ⟨j1, hm1, hi1, _, hw1⟩ := h1
    obtain ⟨j2, hm2, hi2, _, hw2⟩ := h2
    have hj : j1 = j2 :=
      mem_id_unique (reachable_inv hreach).idNodup hm1 hm2 (hi1.trans hi2.symm)
    subst hj
    exact Option.some.inj (hw1.symm.trans hw2)

/-- Witness for C1 on the concrete trace: worker `w1` claims the enqueued
job of `qs1`, and ownership in `qs2` is unique. -/
theorem C1_witness :
    (∃ pre ∈ (requeue_stale_processing_jobs svc0 0 qs1).jobs,
      pre.status = "queued" ∧ cj1.status = "processing" ∧
      cj1.worker_id = some "w1" ∧ cj1.started_at = some 0 ∧
      cj1.attempts = pre.attempts + 1 ∧ cj1 ∈ qs2.jobs) ∧
    ("w1" : String) = "w1" := by
  constructor
  · exact C1_claim_conditional_write_exclusive.1 svc0 qs1 qs2 "w1" 0 cj1
      reach_qs1 (by decide)
  · exact C1_claim_conditional_write_exclusive.2 svc0 qs2 0 "w1" "w1" reach_qs2
      ⟨cj1, by decide, rfl, rfl, rfl⟩ ⟨cj1, by decide, rfl, rfl, rfl⟩

/-- C2: every claim attempt first sweeps `processing` rows whose
`started_at` is older than the lease timeout; a swept row with exhausted
budget transitions to `failed`, otherwise back to `queued` with `worker_id`
and `started_at` cleared and the lease-expiry reason recorded, making the
job claimable again. -/
theorem C2_stale_lease_sweep :
    (∀ (svc : IngestQueueService) (s : QState) (w : String) (now : Nat),
      claim_next_job svc s w now =
        claimCandidates w now (scanWindow (requeue_stale_processing_jobs svc now s))
          (requeue_stale_processing_jobs svc now s)) ∧
    (∀ (svc : IngestQueueService) (s : QState) (now t : Nat) (j : JobRec),
      j ∈ s.jobs → j.status = "processing" → j.started_at = some t →
      t + svc.lock_timeout_seconds < now →
      sweepJob now j ∈ (requeue_stale_processing_jobs svc now s).jobs ∧
      (j.max_attempts ≤ j.attempts → (sweepJob now j).status = "failed") ∧
      (j.attempts < j.max_attempts →
        (sweepJob now j).status = "queued" ∧ (sweepJob now j).worker_id = none ∧
        (sweepJob now j).started_at = none ∧
        (sweepJob now j).error_msg = some "job timed out in previous worker")) := by
  constructor
  · intro svc s w now
    rfl
  · intro svc s now t j hj hproc hstart hlate
    have hstale : staleJob svc now j = true := by
      simp [staleJob, hproc, hstart, hlate]
    refine ⟨mem_updateJobs.mpr ⟨j, hj, by rw [if_pos hstale]⟩, ?_, ?_⟩
    · intro hle
      unfold sweepJob
      rw [if_pos hle]
    · intro hlt
      unfold sweepJob
      rw [if_neg (Nat.not_le.mpr hlt)]
      exact ⟨rfl, rfl, rfl, rfl⟩

/-- A concrete stale row for exercising the sweep. -/
def staleJ : JobRec :=
  { id := 5, document_id := "doc-s", status := "processing", attempts := 1,
    max_attempts := 3, error_msg := none, worker_id := some "w9",
    processing_mode := "queue", created_at := 0, started_at := some 0,
    finished_at := none }

/-- A store holding only the stale row `staleJ`. -/
def staleS : QState := { jobs := [staleJ], nextId := 6 }

/-- Witness for C2: the stale row of `staleS` is requeued by the sweep at
time 100 with its lease cleared. -/
theorem C2_witness :
    claim_next_job svc0 staleS "w1" 100 =
      claimCandidates "w1" 100 (scanWindow (requeue_stale_processing_jobs svc0 100 staleS))
        (requeue_stale_processing_jobs svc0 100 staleS) ∧
    (sweepJob 100 staleJ ∈ (requeue_stale_processing_jobs svc0 100 staleS).jobs ∧
      (staleJ.max_attempts ≤ staleJ.attempts → (sweepJob 100 staleJ).status = "failed") ∧
      (staleJ.attempts < staleJ.max_attempts →
        (sweepJob 100 staleJ).status = "queued" ∧ (sweepJob 100 staleJ).worker_id = none ∧
        (sweepJob 100 staleJ).started_at = none ∧
        (sweepJob 100 staleJ).error_msg = some "job timed out in previous worker")) :=
  ⟨C2_stale_lease_sweep.1 svc0 staleS "w1" 100,
   C2_stale_lease_sweep.2 svc0 staleS 100 0 staleJ (by decide) rfl rfl (by decide)⟩

/-- C3 counterexample: the claim states `workerId` non-null ⇔
`status = processing` in every reachable state, but the exhausted branch
of the sweep (`ingest_queue_service.py`, lines 101-108) fails the job without
clearing `worker_id`: in `qs7` the job is `failed` with `worker_id` still
`"w1"`. -/
theorem C3_counterexample :
    Reachable svc0 qs7 ∧
    ¬ (∀ j ∈ qs7.jobs, (j.worker_id ≠ none ↔ j.status = "processing")) :=
  ⟨reach_qs7, by decide⟩

/-- C3 (amended): in every reachable state, a `processing` row has a
non-null `workerId`, and a non-null `workerId` occurs only on a
`processing` row or on a row failed by the stale-lease sweep (which keeps
the stale `workerId`). -/
theorem C3_worker_lease_invariant :
    ∀ (svc : IngestQueueService) (s : QState), Reachable svc s →
      ∀ j ∈ s.jobs,
        (j.status = "processing" → j.worker_id ≠ none) ∧
        (j.worker_id ≠ none → j.status = "processing" ∨ j.status = "failed") := by
  intro svc s h j hj
  have hok := (reachable_inv h).jobsOk j hj
  exact ⟨hok.1, hok.2.1⟩

/-- Witness for C3 on the claimed job of `qs2`. -/
theorem C3_witness :
    (cj1.status = "processing" → cj1.worker_id ≠ none) ∧
    (cj1.worker_id ≠ none → cj1.status = "processing" ∨ cj1.status = "failed") :=
  C3_worker_lease_invariant svc0 qs2 reach_qs2 cj1 (by decide)

/-- C4 counterexample: the claim states that after `enqueue` the job has
`attempts = 0` in both branches, but the reset branch of `enqueue_document`
(`ingest_queue_service.py`, lines 42-49) does not touch `attempts`: in the
reachable state `qs3` the existing job has `attempts = 1`, and re-enqueuing
it yields a job with `attempts = 1`, not 0. -/
theorem C4_counterexample :
    Reachable svc0 qs3 ∧
    (findJobByDoc qs3 "doc-1").isSome = true ∧
    (enqueue_document svc0 qs3 "doc-1" "queue" 1).2.attempts = 1 :=
  ⟨reach_qs3, by decide, by decide⟩

/-- C4 (amended): `enqueue` creates a new job with `attempts = 0` when none
exists for the document, and otherwise resets the existing job in place
(status `queued`, `worker_id`/`error_msg`/`started_at`/`finished_at`
cleared) while preserving its `attempts` counter; it never creates a second
row, and every reachable state has at most one job per document. -/
theorem C4_enqueue_one_job_per_document :
    (∀ (svc : IngestQueueService) (s : QState), Reachable svc s →
      (s.jobs.map JobRec.document_id).Nodup) ∧
    (∀ (svc : IngestQueueService) (s : QState) (d mode : String) (now : Nat) (job : JobRec),
      findJobByDoc s d = some job →
      (enqueue_document svc s d mode now).1.jobs.length = s.jobs.length ∧
      (enqueue_document svc s d mode now).2 = enqueueReset svc mode job ∧
      (enqueueReset svc mode job).status = "queued" ∧
      (enqueueReset svc mode job).attempts = job.attempts ∧
      (enqueueReset svc mode job).worker_id = none ∧
      (enqueueReset svc mode job).error_msg = none ∧
      (enqueueReset svc mode job).started_at = none ∧
      (enqueueReset svc mode job).finished_at = none) ∧
    (∀ (svc : IngestQueueService) (s : QState) (d mode : String) (now : Nat),
      findJobByDoc s d = none →
      (enqueue_document svc s d mode now).1.jobs
        = s.jobs ++ [(enqueue_document svc s d mode now).2] ∧
      (enqueue_document svc s d mode now).2.status = "queued" ∧
      (enqueue_document svc s d mode now).2.attempts = 0 ∧
      (enqueue_document svc s d mode now).2.worker_id = none ∧
      (enqueue_document svc s d mode now).2.error_msg = none ∧
      (enqueue_document svc s d mode now).2.started_at = none ∧
      (enqueue_document svc s d mode now).2.finished_at = none) := by
  refine ⟨?_, ?_, ?_⟩
  · intro svc s h
    exact (reachable_inv h).docNodup
  · intro svc s d mode now job hfind
    have h1 : enqueue_document svc s d mode now =
        ({ s with jobs := updateJobs (fun x => x.id == job.id) (enqueueReset svc mode) s.jobs },
         enqueueReset svc mode job) := by
      unfold enqueue_document
      rw [hfind]
    rw [h1]
    refine ⟨?_, rfl, rfl, rfl, rfl, rfl, rfl, rfl⟩
    exact List.length_map s.jobs _
  · intro svc s d mode now hfind
    have h1 : enqueue_document svc s d mode now =
        ({ jobs := s.jobs ++ [newJob svc s.nextId d mode now], nextId := s.nextId + 1 },
         newJob svc s.nextId d mode now) := by
      unfold enqueue_document
      rw [hfind]
    rw [h1]
    exact ⟨rfl, rfl, rfl, rfl, rfl, rfl, rfl⟩

/-- The requeued row of `qs3` (attempts 1, last error recorded). -/
def qj3 : JobRec :=
  { id := 0, document_id := "doc-1", status := "queued", attempts := 1,
    max_attempts := 3, error_msg := some "embed timeout", worker_id := none,
    processing_mode := "queue", created_at := 0, started_at := none,
    finished_at := none }

/-- Witness for C4: document uniqueness in `qs3`, the reset branch on
`qs3`, and the create branch on the empty store. -/
theorem C4_witness :
    (qs3.jobs.map JobRec.document_id).Nodup ∧
    ((enqueue_document svc0 qs3 "doc-1" "queue" 1).1.jobs.length = qs3.jobs.length ∧
      (enqueue_document svc0 qs3 "doc-1" "queue" 1).2 = enqueueReset svc0 "queue" qj3 ∧
      (enqueueReset svc0 "queue" qj3).status = "queued" ∧
      (enqueueReset svc0 "queue" qj3).attempts = qj3.attempts ∧
      (enqueueReset svc0 "queue" qj3).worker_id = none ∧
      (enqueueReset svc0 "queue" qj3).error_msg = none ∧
      (enqueueReset svc0 "queue" qj3).started_at = none ∧
      (enqueueReset svc0 "queue" qj3).finished_at = none) ∧
    ((enqueue_document svc0 initState "doc-1" "queue" 0).1.jobs
        = initState.jobs ++ [(enqueue_document svc0 initState "doc-1" "queue" 0).2] ∧
      (enqueue_document svc0 initState "doc-1" "queue" 0).2.status = "queued" ∧
      (enqueue_document svc0 initState "doc-1" "queue" 0).2.attempts = 0 ∧
      (enqueue_document svc0 initState "doc-1" "queue" 0).2.worker_id = none ∧
      (enqueue_document svc0 initState "doc-1" "queue" 0).2.error_msg = none ∧
      (enqueue_document svc0 initState "doc-1" "queue" 0).2.started_at = none ∧
      (enqueue_document svc0 initState "doc-1" "queue" 0).2.finished_at = none) :=
  ⟨C4_enqueue_one_job_per_document.1 svc0 qs3 reach_qs3,
   C4_enqueue_one_job_per_document.2.1 svc0 qs3 "doc-1" "queue" 1 qj3 (by decide),
   C4_enqueue_one_job_per_document.2.2 svc0 initState "doc-1" "queue" 0 (by decide)⟩

theorem findJobById_requeue (svc : IngestQueueService) (now : Nat) (s : QState) (i : Nat) :
    findJobById (requeue_stale_processing_jobs svc now s) i
      = Option.map (fun x => if staleJob svc now x = true then sweepJob now x else x)
          (findJobById s i) :=
  findJobById_updateJobs s _ _ (fun x => (sweepJob_keys now x).1) i

theorem findJobById_claimedState (w : String) (now : Nat) (pre : JobRec)
    (s : QState) (i : Nat) :
    findJobById (claimedState w now pre s) i
      = Option.map (fun x => if (x.id == pre.id && x.status == "queued") = true
          then claimUpdate w now pre.attempts x else x) (findJobById s i) :=
  findJobById_updateJobs s (fun x => x.id == pre.id && x.status == "queued")
    (claimUpdate w now pre.attempts) (fun _ => rfl) i

theorem findJobById_retriedState (svc : IngestQueueService) (found : JobRec)
    (s : QState) (i : Nat) :
    findJobById (retriedState svc found s) i
      = Option.map (fun x => if (x.id == found.id) = true then retryReset svc x else x)
          (findJobById s i) :=
  findJobById_updateJobs s (fun x => x.id == found.id) (retryReset svc) (fun _ => rfl) i

theorem findJobById_updateById (s : QState) (k : Nat) (f : JobRec → JobRec)
    (hf : ∀ x, (f x).id = x.id) (i : Nat) :
    findJobById { s with jobs := updateJobs (fun x => x.id == k) f s.jobs } i
      = Option.map (fun x => if (x.id == k) = true then f x else x) (findJobById s i) :=
  findJobById_updateJobs s (fun x => x.id == k) f hf i

theorem failed_beq_queued : (("failed" : String) == "queued") = false := by decide

/-- A `failed` row is never moved back to `queued` by a queue operation
other than an `enqueue` or a `retry` targeting its own document. -/
theorem failed_not_requeued {svc : IngestQueueService} {s : QState} {op : Op} {j : JobRec}
    (hInv : Inv s) (hj : j ∈ s.jobs) (hst : j.status = "failed")
    (hop : opRequeuesDoc j.document_id op = false) :
    ∃ j', findJobById (applyOp svc op s) j.id = some j' ∧ j'.status ≠ "queued" := by
  have hself : findJobById s j.id = some j := find?_id_of_nodup hInv.idNodup hj
  have hfq : j.status ≠ "queued" := by
    rw [hst]
    exact failed_ne_queued
  cases op with
  | enqueue d mode now =>
      have hd : ¬ (d == j.document_id) = true := by
        simpa [opRequeuesDoc] using hop
      cases hfind : findJobByDoc s d with
      | none =>
          refine ⟨j, ?_, hfq⟩
          simp only [applyOp, enqueue_document, hfind]
          exact find?_append_some hself
      | some found =>
          have hfound_mem : found ∈ s.jobs := List.mem_of_find?_eq_some hfind
          have hfound_doc : found.document_id = d := by
            simpa using List.find?_some hfind
          have hne : (j.id == found.id) = false := by
            cases hcs : (j.id == found.id) with
            | false => rfl
            | true =>
                exfalso
                have hjf : j = found :=
                  mem_id_unique hInv.idNodup hj hfound_mem (by simpa using hcs)
                exact hd (by rw [hjf, hfound_doc]; simp)
          refine ⟨j, ?_, hfq⟩
          simp only [applyOp, enqueue_document, hfind]
          rw [findJobById_updateById s found.id (enqueueReset svc mode) (fun _ => rfl) j.id,
            hself]
          show some (if (j.id == found.id) = true then enqueueReset svc mode j else j) = some j
          rw [hne]
          simp
  | claim w now =>
      have hstale : staleJob svc now j = false := by
        simp [staleJob, hst]
      have h1 : findJobById (requeue_stale_processing_jobs svc now s) j.id = some j := by
        rw [findJobById_requeue, hself]
        show some (if staleJob svc now j = true then sweepJob now j else j) = some j
        rw [hstale]
        simp
      have hInv1 : Inv (requeue_stale_processing_jobs svc now s) :=
        inv_requeue_stale svc now s hInv
      rcases hcl : claim_next_job svc s w now with ⟨s', oj⟩
      have happ : applyOp svc (.claim w now) s = s' := by
        simp [applyOp, hcl]
      rw [happ]
      cases oj with
      | none =>
          rw [claim_next_job_none hcl]
          exact ⟨j, h1, hfq⟩
      | some jj =>
          obtain ⟨pre, hpre_mem, hpre_q, hjj, hs'⟩ := claim_next_job_some hInv hcl
          rw [hs', findJobById_claimedState, h1]
          refine ⟨_, rfl, ?_⟩
          dsimp only
          have hp2 : (j.id == pre.id && j.status == "queued") = false := by
            rw [hst, failed_beq_queued, Bool.and_false]
          rw [if_neg (by rw [hp2]; exact Bool.false_ne_true)]
          exact hfq
  | complete i2 now =>
      cases hfind : findJobById s i2 with
      | none =>
          refine ⟨j, ?_, hfq⟩
          simp only [applyOp, complete_job, hfind]
          exact hself
      | some job2 =>
          simp only [applyOp, complete_job, hfind]
          rw [findJobById_updateById s i2 (completedUpdate now) (fun _ => rfl) j.id, hself]
          refine ⟨_, rfl, ?_⟩
          dsimp only
          by_cases hc : (j.id == i2) = true
          · rw [if_pos hc]
            exact completed_ne_queued
          · rw [if_neg hc]
            exact hfq
  | fail i2 e now =>
      cases hfind : findJobById s i2 with
      | none =>
          refine ⟨j, ?_, hfq⟩
          simp only [applyOp, mark_job_failed_or_retry, hfind]
          exact hself
      | some job2 =>
          by_cases hbr : job2.max_attempts ≤ job2.attempts
          · simp only [applyOp, mark_job_failed_or_retry, hfind, if_pos hbr]
            rw [findJobById_updateById s i2 (failedUpdate e now) (fun _ => rfl) j.id, hself]
            refine ⟨_, rfl, ?_⟩
            dsimp only
            by_cases hc : (j.id == i2) = true
            · rw [if_pos hc]
              exact failed_ne_queued
            · rw [if_neg hc]
              exact hfq
          · simp only [applyOp, mark_job_failed_or_retry, hfind, if_neg hbr]
            rw [findJobById_updateById s i2 (requeuedUpdate e) (fun _ => rfl) j.id, hself]
            refine ⟨_, rfl, ?_⟩
            dsimp only
            have hc : ¬ (j.id == i2) = true := by
              intro hcs
              have hid2 : job2.id = i2 := by
                simpa using List.find?_some hfind
              have hji : j.id = i2 := by simpa using hcs
              have hjj2 : j = job2 := mem_id_unique hInv.idNodup hj
                (List.mem_of_find?_eq_some hfind) (hji.trans hid2.symm)
              have hbud := (hInv.jobsOk j hj).2.2 hst
              rw [hjj2] at hbud
              exact hbr hbud
            rw [if_neg hc]
            exact hfq
  | retry d =>
      have hd : ¬ (d == j.document_id) = true := by
        simpa [opRequeuesDoc] using hop
      cases hfind : findJobByDoc s d with
      | none =>
          refine ⟨j, ?_, hfq⟩
          simp only [applyOp, retry_document_job, hfind]
          exact hself
      | some found =>
          have hfound_mem : found ∈ s.jobs := List.mem_of_find?_eq_some hfind
          have hfound_doc : found.document_id = d := by
            simpa using List.find?_some hfind
          have hne : ¬ (j.id == found.id) = true := by
            intro hcs
            have hjf : j = found :=
              mem_id_unique hInv.idNodup hj hfound_mem (by simpa using hcs)
            exact hd (by rw [hjf, hfound_doc]; simp)
          by_cases hstt : found.status = "failed" ∨ found.status = "completed"
          · simp only [applyOp, retry_document_job, hfind, if_pos hstt]
            rw [findJobById_retriedState, hself]
            refine ⟨_, rfl, ?_⟩
            dsimp only
            rw [if_neg hne]
            exact hfq
          · simp only [applyOp, retry_document_job, hfind, if_neg hstt]
            exact ⟨j, hself, hfq⟩

/-- C5 counterexample: the claim states that a failed job never returns to
`queued` except via explicit `retry()`, but `enqueue_document`
unconditionally resets an existing job to `queued`: in the reachable state
`qs6f` the job is `failed`, and a fresh enqueue of the same document (not a
retry) puts it back to `queued`. -/
theorem C5_counterexample :
    Reachable svc0 qs6f ∧
    (findJobById qs6f 0).map JobRec.status = some "failed" ∧
    (findJobById (applyOp svc0 (.enqueue "doc-1" "queue" 2) qs6f) 0).map JobRec.status
      = some "queued" :=
  ⟨reach_qs6f, by decide, by decide⟩

/-- C5 (amended): `reportFailure` on a job with exhausted budget records the
truncated error, clears the lease holder and marks the job `failed`; with
remaining budget it requeues the job with `worker_id`/`started_at` cleared
and the truncated error recorded; persisted errors are at most 4000
characters; and a failed job never returns to `queued` except via explicit
`retry()` or a fresh `enqueue` of its document. -/
theorem C5_report_failure_semantics :
    (∀ (s : QState) (i : Nat) (e : String) (now : Nat) (job : JobRec),
      findJobById s i = some job →
      (job.max_attempts ≤ job.attempts →
        findJobById (mark_job_failed_or_retry s i e now) i = some (failedUpdate e now job) ∧
        (failedUpdate e now job).status = "failed" ∧
        (failedUpdate e now job).worker_id = none ∧
        (failedUpdate e now job).error_msg = some (truncateError e)) ∧
      (job.attempts < job.max_attempts →
        findJobById (mark_job_failed_or_retry s i e now) i = some (requeuedUpdate e job) ∧
        (requeuedUpdate e job).status = "queued" ∧
        (requeuedUpdate e job).worker_id = none ∧
        (requeuedUpdate e job).started_at = none ∧
        (requeuedUpdate e job).error_msg = some (truncateError e))) ∧
    (∀ e : String, (truncateError e).length ≤ 4000) ∧
    (∀ (svc : IngestQueueService) (s : QState) (op : Op) (j : JobRec),
      Reachable svc s → j ∈ s.jobs → j.status = "failed" →
      opRequeuesDoc j.document_id op = false →
      ∃ j', findJobById (applyOp svc op s) j.id = some j' ∧ j'.status ≠ "queued") := by
  refine ⟨?_, ?_, ?_⟩
  · intro s i e now job hfind
    have hfind' : List.find? (fun x => x.id == i) s.jobs = some job := hfind
    have hid : (job.id == i) = true := by simpa using List.find?_some hfind'
    constructor
    · intro hbr
      refine ⟨?_, rfl, rfl, rfl⟩
      simp only [mark_job_failed_or_retry, hfind, if_pos hbr]
      rw [findJobById_updateById s i (failedUpdate e now) (fun _ => rfl) i, hfind]
      show some (if (job.id == i) = true then failedUpdate e now job else job) = _
      rw [if_pos hid]
    · intro hbr
      refine ⟨?_, rfl, rfl, rfl, rfl⟩
      simp only [mark_job_failed_or_retry, hfind, if_neg (Nat.not_le.mpr hbr)]
      rw [findJobById_updateById s i (requeuedUpdate e) (fun _ => rfl) i, hfind]
      show some (if (job.id == i) = true then requeuedUpdate e job else job) = _
      rw [if_pos hid]
  · intro e
    show (List.take 4000 (if e = "" then "unknown ingest error" else e).data).length ≤ 4000
    rw [List.length_take]
    exact Nat.min_le_left _ _
  · intro svc s op j hreach hj hst hop
    exact failed_not_requeued (reachable_inv hreach) hj hst hop

/-- The processing row of `qs6` (third attempt in flight). -/
def cj6 : JobRec :=
  { id := 0, document_id := "doc-1", status := "processing", attempts := 3,
    max_attempts := 3, error_msg := none, worker_id := some "w1",
    processing_mode := "queue", created_at := 0, started_at := some 0,
    finished_at := none }

/-- The failed row of `qs6f`. -/
def fj6 : JobRec :=
  { id := 0, document_id := "doc-1", status := "failed", attempts := 3,
    max_attempts := 3, error_msg := some "boom", worker_id := none,
    processing_mode := "queue", created_at := 0, started_at := some 0,
    finished_at := some 1 }

/-- Witness for C5: the terminal branch on `qs6`, the requeue branch on
`qs2`, the truncation bound, and the persistence of `failed` under a
non-requeuing operation on `qs6f`. -/
theorem C5_witness :
    ((cj6.max_attempts ≤ cj6.attempts →
        findJobById (mark_job_failed_or_retry qs6 0 "boom" 1) 0
          = some (failedUpdate "boom" 1 cj6) ∧
        (failedUpdate "boom" 1 cj6).status = "failed" ∧
        (failedUpdate "boom" 1 cj6).worker_id = none ∧
        (failedUpdate "boom" 1 cj6).error_msg = some (truncateError "boom")) ∧
      (cj6.attempts < cj6.max_attempts →
        findJobById (mark_job_failed_or_retry qs6 0 "boom" 1) 0
          = some (requeuedUpdate "boom" cj6) ∧
        (requeuedUpdate "boom" cj6).status = "queued" ∧
        (requeuedUpdate "boom" cj6).worker_id = none ∧
        (requeuedUpdate "boom" cj6).started_at = none ∧
        (requeuedUpdate "boom" cj6).error_msg = some (truncateError "boom"))) ∧
    (truncateError "embed timeout").length ≤ 4000 ∧
    (∃ j', findJobById (applyOp svc0 (.complete 7 9) qs6f) fj6.id = some j' ∧
      j'.status ≠ "queued") :=
  ⟨C5_report_failure_semantics.1 qs6 0 "boom" 1 cj6 (by decide),
   C5_report_failure_semantics.2.1 "embed timeout",
   C5_report_failure_semantics.2.2 svc0 qs6f (.complete 7 9) fj6 reach_qs6f
     (by decide) rfl rfl⟩

/-- C6: `retry_document_job` succeeds exactly on a `failed` or `completed`
job, resetting it to `queued` with `attempts = 0` and
`error_msg`/`worker_id`/`started_at`/`finished_at` cleared; on any other
status it raises the invalid-state error, and with no job for the document
it raises the not-found error. -/
theorem C6_retry_semantics :
    (∀ (svc : IngestQueueService) (s : QState) (d : String),
      findJobByDoc s d = none →
      retry_document_job svc s d = .error "document ingest job not found") ∧
    (∀ (svc : IngestQueueService) (s : QState) (d : String) (job : JobRec),
      findJobByDoc s d = some job →
      job.status ≠ "failed" → job.status ≠ "completed" →
      retry_document_job svc s d = .error "only failed/completed jobs can be retried") ∧
    (∀ (svc : IngestQueueService) (s : QState) (d : String) (job : JobRec),
      findJobByDoc s d = some job →
      job.status = "failed" ∨ job.status = "completed" →
      retry_document_job svc s d = .ok (retriedState svc job s, retryReset svc job) ∧
      (retryReset svc job).status = "queued" ∧
      (retryReset svc job).attempts = 0 ∧
      (retryReset svc job).error_msg = none ∧
      (retryReset svc job).worker_id = none ∧
      (retryReset svc job).started_at = none ∧
      (retryReset svc job).finished_at = none) := by
  refine ⟨?_, ?_, ?_⟩
  · intro svc s d hfind
    simp only [retry_document_job, hfind]
  · intro svc s d job hfind h1 h2
    have hstt : ¬ (job.status = "failed" ∨ job.status = "completed") := by
      rintro (h | h)
      · exact h1 h
      · exact h2 h
    simp only [retry_document_job, hfind, if_neg hstt]
  · intro svc s d job hfind hstt
    refine ⟨?_, rfl, rfl, rfl, rfl, rfl, rfl⟩
    simp only [retry_document_job, hfind, if_pos hstt]

/-- Witness for C6: not-found on the empty store, invalid state on the
processing job of `qs2`, success on the failed job of `qs6f`. -/
theorem C6_witness :
    retry_document_job svc0 initState "doc-1" = .error "document ingest job not found" ∧
    retry_document_job svc0 qs2 "doc-1" = .error "only failed/completed jobs can be retried" ∧
    (retry_document_job svc0 qs6f "doc-1" = .ok (retriedState svc0 fj6 qs6f, retryReset svc0 fj6) ∧
      (retryReset svc0 fj6).status = "queued" ∧
      (retryReset svc0 fj6).attempts = 0 ∧
      (retryReset svc0 fj6).error_msg = none ∧
      (retryReset svc0 fj6).worker_id = none ∧
      (retryReset svc0 fj6).started_at = none ∧
      (retryReset svc0 fj6).finished_at = none) :=
  ⟨C6_retry_semantics.1 svc0 initState "doc-1" rfl,
   C6_retry_semantics.2.1 svc0 qs2 "doc-1" cj1 (by decide) (by decide) (by decide),
   C6_retry_semantics.2.2 svc0 qs6f "doc-1" fj6 (by decide) (Or.inl rfl)⟩

/-- Worker instance with a configured poll interval of 1 s (100 cs). -/
def w9 : IngestWorker := mkIngestWorker "w1" 100

/-- C9 counterexample: the claim states that after processing a claimed job
the worker continues with no sleep, but `IngestWorker.run`
(`ingest_worker.py`, line 37) sleeps 0.05 s (5 cs) after every processed
job: on `qs1` a job is claimed, yet the iteration sleeps 5 cs, which is
neither 0 nor the poll interval. -/
theorem C9_counterexample :
    (claim_next_job svc0 qs1 w9.worker_id 0).2.isSome = true ∧
    (worker_iteration svc0 w9 qs1 0 true .ok).2 = 5 ∧
    (5 : Nat) ≠ 0 ∧ (5 : Nat) ≠ w9.poll_interval :=
  ⟨by decide, by decide, by decide, by decide⟩

/-- C9 (amended): a worker iteration that claimed a job processes it and
then sleeps a fixed short 0.05 s (5 cs) — not the poll interval — before
the next claim; it sleeps the configured poll interval (clamped to at least
0.2 s) exactly when no job was claimed. -/
theorem C9_worker_sleep :
    (∀ (svc : IngestQueueService) (w : IngestWorker) (s s' : QState) (now : Nat)
        (de : Bool) (oc : IngestOutcome) (j : JobRec),
      claim_next_job svc s w.worker_id now = (s', some j) →
      (worker_iteration svc w s now de oc).2 = 5) ∧
    (∀ (svc : IngestQueueService) (w : IngestWorker) (s s' : QState) (now : Nat)
        (de : Bool) (oc : IngestOutcome),
      claim_next_job svc s w.worker_id now = (s', none) →
      (worker_iteration svc w s now de oc).2 = w.poll_interval) ∧
    (∀ (wid : String) (raw : Nat), 20 ≤ (mkIngestWorker wid raw).poll_interval) := by
  refine ⟨?_, ?_, ?_⟩
  · intro svc w s s' now de oc j hcl
    simp only [worker_iteration, hcl]
  · intro svc w s s' now de oc hcl
    simp only [worker_iteration, hcl]
  · intro wid raw
    exact Nat.le_max_right raw 20

/-- Witness for C9: sleep 5 cs after the claim on `qs1`, poll-interval sleep
on the empty store, and the 0.2 s clamp. -/
theorem C9_witness :
    (worker_iteration svc0 w9 qs1 0 true .ok).2 = 5 ∧
    (worker_iteration svc0 w9 initState 0 true .ok).2 = w9.poll_interval ∧
    20 ≤ (mkIngestWorker "w1" 0).poll_interval :=
  ⟨C9_worker_sleep.1 svc0 w9 qs1 qs2 0 true .ok cj1 (by decide),
   C9_worker_sleep.2.1 svc0 w9 initState initState 0 true .ok (by decide),
   C9_worker_sleep.2.2 "w1" 0⟩

theorem generate_text_ok_primary {T : Type} {env : LLMEnv T} {n : Nat} {t : String}
    (hp : env.primary n = .ok t) :
    generate_text env n = .ok (t, env.genTime n) := by
  simp only [generate_text, hp]

theorem generate_text_error_iff {T : Type} {env : LLMEnv T} {n : Nat} {e : String} :
    generate_text env n = .error e ↔
      ∃ e1, env.primary n = .error e1 ∧ env.fallback n = .error e := by
  constructor
  · intro h
    cases hp : env.primary n with
    | ok t => simp [generate_text, hp] at h
    | error e1 =>
        cases hf : env.fallback n with
        | ok t => simp [generate_text, hp, hf] at h
        | error e2 =>
            simp only [generate_text, hp, hf, Except.error.injEq] at h
            exact ⟨e1, rfl, by rw [h]⟩
  · rintro ⟨e1, hp, hf⟩
    simp only [generate_text, hp, hf]

theorem run_aux_parse_error {T : Type} (env : LLMEnv T) (fuel attempts llmT parseT : Nat)
    (le : Option String) (lt : String) (lp : Option T) {t : String} {g : Nat} {e : String}
    (hgen : generate_text env (attempts + 1) = .ok (t, g))
    (hparse : env.parse_fn t = .error e) :
    run_with_retry_aux env (fuel + 1) attempts llmT parseT le lt lp =
      run_with_retry_aux env fuel (attempts + 1) (llmT + g)
        (parseT + env.parseTime (attempts + 1)) (some ("解析异常: " ++ e)) t lp := by
  simp only [run_with_retry_aux, hgen, hparse]

theorem run_aux_reject {T : Type} (env : LLMEnv T) (fuel attempts llmT parseT : Nat)
    (le : Option String) (lt : String) (lp : Option T) {t : String} {g : Nat} {v : T}
    {reason : Option String}
    (hgen : generate_text env (attempts + 1) = .ok (t, g))
    (hparse : env.parse_fn t = .ok v)
    (hv : env.validate_fn v = (false, reason)) :
    run_with_retry_aux env (fuel + 1) attempts llmT parseT le lt lp =
      run_with_retry_aux env fuel (attempts + 1) (llmT + g)
        (parseT + env.parseTime (attempts + 1)) (some (reasonOrDefault reason))
        t (some v) := by
  simp only [run_with_retry_aux, hgen, hparse, hv]

theorem run_aux_accept {T : Type} (env : LLMEnv T) (fuel attempts llmT parseT : Nat)
    (le : Option String) (lt : String) (lp : Option T) {t : String} {g : Nat} {v : T}
    (hgen : generate_text env (attempts + 1) = .ok (t, g))
    (hparse : env.parse_fn t = .ok v)
    (hv : env.validate_fn v = (true, none)) :
    run_with_retry_aux env (fuel + 1) attempts llmT parseT le lt lp =
      .ok { success := true, parsed_result := some v, response_text := t,
            attempts := attempts + 1, retry_count := attempts,
            llm_time := llmT + g,
            parse_time := parseT + env.parseTime (attempts + 1),
            last_error := none } := by
  simp only [run_with_retry_aux, hgen, hparse, hv, Nat.add_sub_cancel]

theorem run_aux_exhaust {T : Type} (env : LLMEnv T) (attempts llmT parseT : Nat)
    (le : Option String) (lt : String) (lp : Option T) :
    run_with_retry_aux env 0 attempts llmT parseT le lt lp =
      .ok { success := false, parsed_result := lp, response_text := lt,
            attempts := attempts, retry_count := attempts - 1,
            llm_time := llmT, parse_time := parseT, last_error := le } := rfl

/-- C7: against a generator that always yields text, with a validator that
rejects the parses of attempts 1 and 2 (with a genuine, non-empty reason on
attempt 2 — a falsy reason would be replaced by the default, mirroring
`reason or` in the source) and accepts attempt 3, `run_with_retry` with
budget 3 succeeds with `retry_count = 2` (`attempts = 3`), while with
budget 2 it returns a failure result carrying the last validation reason
and the last parsed value. -/
theorem C7_validator_accepts_third_attempt :
    ∀ (T : Type) (env : LLMEnv T) (t1 t2 t3 : String) (v1 v2 v3 : T) (r1 r2 : String),
      env.primary 1 = .ok t1 → env.primary 2 = .ok t2 → env.primary 3 = .ok t3 →
      env.parse_fn t1 = .ok v1 → env.parse_fn t2 = .ok v2 → env.parse_fn t3 = .ok v3 →
      env.validate_fn v1 = (false, some r1) → env.validate_fn v2 = (false, some r2) →
      env.validate_fn v3 = (true, none) → r2 ≠ "" →
      (∃ res, run_with_retry env 3 = .ok res ∧ res.success = true ∧
        res.parsed_result = some v3 ∧ res.response_text = t3 ∧
        res.attempts = 3 ∧ res.retry_count = 2 ∧ res.last_error = none) ∧
      (∃ res, run_with_retry env 2 = .ok res ∧ res.success = false ∧
        res.parsed_result = some v2 ∧ res.response_text = t2 ∧
        res.attempts = 2 ∧ res.retry_count = 1 ∧ res.last_error = some r2) := by
  intro T env t1 t2 t3 v1 v2 v3 r1 r2 hp1 hp2 hp3 hq1 hq2 hq3 hv1 hv2 hv3 hr2
  constructor
  · have h3 : run_with_retry env 3 =
        .ok { success := true, parsed_result := some v3, response_text := t3,
              attempts := 2 + 1, retry_count := 2,
              llm_time := 0 + env.genTime 1 + env.genTime 2 + env.genTime 3,
              parse_time := 0 + env.parseTime 1 + env.parseTime 2 + env.parseTime 3,
              last_error := none } := by
      calc run_with_retry env 3
          = run_with_retry_aux env 3 0 0 0 none "" none := rfl
        _ = run_with_retry_aux env 2 1 (0 + env.genTime 1) (0 + env.parseTime 1)
              (some (reasonOrDefault (some r1))) t1 (some v1) :=
            run_aux_reject env 2 0 0 0 none "" none
              (generate_text_ok_primary hp1) hq1 hv1
        _ = run_with_retry_aux env 1 2 (0 + env.genTime 1 + env.genTime 2)
              (0 + env.parseTime 1 + env.parseTime 2)
              (some (reasonOrDefault (some r2))) t2 (some v2) :=
            run_aux_reject env 1 1 _ _ _ _ _ (generate_text_ok_primary hp2) hq2 hv2
        _ = _ := run_aux_accept env 0 2 _ _ _ _ _ (generate_text_ok_primary hp3) hq3 hv3
    exact ⟨_, h3, rfl, rfl, rfl, rfl, rfl, rfl⟩
  · have h2 : run_with_retry env 2 =
        .ok { success := false, parsed_result := some v2, response_text := t2,
              attempts := 1 + 1, retry_count := 1 + 1 - 1,
              llm_time := 0 + env.genTime 1 + env.genTime 2,
              parse_time := 0 + env.parseTime 1 + env.parseTime 2,
              last_error := some (reasonOrDefault (some r2)) } := by
      calc run_with_retry env 2
          = run_with_retry_aux env 2 0 0 0 none "" none := rfl
        _ = run_with_retry_aux env 1 1 (0 + env.genTime 1) (0 + env.parseTime 1)
              (some (reasonOrDefault (some r1))) t1 (some v1) :=
            run_aux_reject env 1 0 0 0 none "" none
              (generate_text_ok_primary hp1) hq1 hv1
        _ = run_with_retry_aux env 0 2 (0 + env.genTime 1 + env.genTime 2)
              (0 + env.parseTime 1 + env.parseTime 2)
              (some (reasonOrDefault (some r2))) t2 (some v2) :=
            run_aux_reject env 0 1 _ _ _ _ _ (generate_text_ok_primary hp2) hq2 hv2
        _ = _ := run_aux_exhaust env _ _ _ _ _ _
    refine ⟨_, h2, rfl, rfl, rfl, rfl, rfl, ?_⟩
    show some (reasonOrDefault (some r2)) = some r2
    simp [reasonOrDefault, hr2]

/-- A concrete executor environment whose validator accepts only the third
output of the third attempt. -/
def envC7 : LLMEnv String :=
  { primary := fun n => .ok (if n = 1 then "a" else if n = 2 then "b" else "c")
    fallback := fun _ => .error "transport down"
    genTime := fun _ => 2
    parse_fn := fun t => .ok t
    validate_fn := fun v =>
      if v = "c" then (true, none)
      else if v = "b" then (false, some "invalid2") else (false, some "invalid1")
    parseTime := fun _ => 1 }

/-- Witness for C7 on `envC7`. -/
theorem C7_witness :
    (∃ res, run_with_retry envC7 3 = .ok res ∧ res.success = true ∧
      res.parsed_result = some "c" ∧ res.response_text = "c" ∧
      res.attempts = 3 ∧ res.retry_count = 2 ∧ res.last_error = none) ∧
    (∃ res, run_with_retry envC7 2 = .ok res ∧ res.success = false ∧
      res.parsed_result = some "b" ∧ res.response_text = "b" ∧
      res.attempts = 2 ∧ res.retry_count = 1 ∧ res.last_error = some "invalid2") :=
  C7_validator_accepts_third_attempt String envC7 "a" "b" "c" "a" "b" "c"
    "invalid1" "invalid2" rfl rfl rfl rfl rfl rfl rfl rfl rfl (by decide)

theorem gen_ok_of_transport_ok {T : Type} {env : LLMEnv T} {n : Nat}
    (h : (∃ t, env.primary n = .ok t) ∨ (∃ t, env.fallback n = .ok t)) :
    ∃ t, generate_text env n = .ok (t, env.genTime n) := by
  rcases h with ⟨t, hp⟩ | ⟨t, hf⟩
  · exact ⟨t, generate_text_ok_primary hp⟩
  · cases hp : env.primary n with
    | ok t' => exact ⟨t', generate_text_ok_primary hp⟩
    | error e1 => exact ⟨t, by simp [generate_text, hp, hf]⟩

theorem run_aux_ok_of_gen_ok {T : Type} (env : LLMEnv T)
    (hgen : ∀ n, ∃ t, generate_text env n = .ok (t, env.genTime n)) :
    ∀ (fuel attempts llmT parseT : Nat) (le : Option String) (lt : String) (lp : Option T),
    ∃ res, run_with_retry_aux env fuel attempts llmT parseT le lt lp = .ok res := by
  intro fuel
  induction fuel with
  | zero =>
      intro attempts llmT parseT le lt lp
      exact ⟨_, rfl⟩
  | succ f ih =>
      intro attempts llmT parseT le lt lp
      obtain ⟨t, hg⟩ := hgen (attempts + 1)
      cases hparse : env.parse_fn t with
      | error e =>
          obtain ⟨res, hres⟩ := ih (attempts + 1) (llmT + env.genTime (attempts + 1))
            (parseT + env.parseTime (attempts + 1)) (some ("解析异常: " ++ e)) t lp
          refine ⟨res, ?_⟩
          simp only [run_with_retry_aux, hg, hparse]
          exact hres
      | ok v =>
          rcases hval : env.validate_fn v with ⟨valid, reason⟩
          cases valid with
          | true =>
              exact ⟨{ success := true, parsed_result := some v, response_text := t,
                       attempts := attempts + 1, retry_count := attempts + 1 - 1,
                       llm_time := llmT + env.genTime (attempts + 1),
                       parse_time := parseT + env.parseTime (attempts + 1),
                       last_error := none },
                     by simp only [run_with_retry_aux, hg, hparse, hval]⟩
          | false =>
              obtain ⟨res, hres⟩ := ih (attempts + 1) (llmT + env.genTime (attempts + 1))
                (parseT + env.parseTime (attempts + 1)) (some (reasonOrDefault reason))
                t (some v)
              refine ⟨res, ?_⟩
              simp only [run_with_retry_aux, hg, hparse, hval]
              exact hres

theorem run_aux_error_transports {T : Type} (env : LLMEnv T) :
    ∀ (fuel attempts llmT parseT : Nat) (le : Option String) (lt : String)
      (lp : Option T) (e : String),
    run_with_retry_aux env fuel attempts llmT parseT le lt lp = .error e →
    ∃ n e1, attempts + 1 ≤ n ∧ n ≤ attempts + fuel ∧
      env.primary n = .error e1 ∧ env.fallback n = .error e := by
  intro fuel
  induction fuel with
  | zero =>
      intro attempts llmT parseT le lt lp e h
      exact Except.noConfusion h
  | succ f ih =>
      intro attempts llmT parseT le lt lp e h
      cases hg : generate_text env (attempts + 1) with
      | error e2 =>
          simp only [run_with_retry_aux, hg] at h
          injection h with he
          obtain ⟨e1, hp, hf⟩ := generate_text_error_iff.mp (he ▸ hg)
          exact ⟨attempts + 1, e1, Nat.le_refl _, by omega, hp, hf⟩
      | ok pr =>
          rcases pr with ⟨t, g⟩
          cases hparse : env.parse_fn t with
          | error e3 =>
              simp only [run_with_retry_aux, hg, hparse] at h
              obtain ⟨n, e1, h1, h2, h3, h4⟩ := ih _ _ _ _ _ _ _ h
              exact ⟨n, e1, by omega, by omega, h3, h4⟩
          | ok v =>
              rcases hval : env.validate_fn v with ⟨valid, reason⟩
              cases valid with
              | true =>
                  simp only [run_with_retry_aux, hg, hparse, hval] at h
                  exact Except.noConfusion h
              | false =>
                  simp only [run_with_retry_aux, hg, hparse, hval] at h
                  obtain ⟨n, e1, h1, h2, h3, h4⟩ := ih _ _ _ _ _ _ _ h
                  exact ⟨n, e1, by omega, by omega, h3, h4⟩

/-- C8: a parse exception on an attempt with text obtained is recorded in
the loop state as the last error and consumes exactly one retry attempt,
the loop continuing rather than propagating; a validation rejection is
likewise recorded (with a falsy reason replaced by the default, as in the
source) and consumes exactly one attempt; as long as on every attempt at
least one of the two generation transports yields text, `run_with_retry`
returns a result rather than raising; and an exception escapes
`run_with_retry` only when on some in-budget attempt the primary transport
failed and the fallback transport failed with the propagated error. -/
theorem C8_failures_recorded_only_transport_exhaustion_propagates :
    (∀ (T : Type) (env : LLMEnv T) (fuel attempts llmT parseT : Nat)
        (le : Option String) (lt : String) (lp : Option T)
        (t : String) (g : Nat) (e : String),
      generate_text env (attempts + 1) = .ok (t, g) →
      env.parse_fn t = .error e →
      run_with_retry_aux env (fuel + 1) attempts llmT parseT le lt lp =
        run_with_retry_aux env fuel (attempts + 1) (llmT + g)
          (parseT + env.parseTime (attempts + 1)) (some ("解析异常: " ++ e)) t lp) ∧
    (∀ (T : Type) (env : LLMEnv T) (fuel attempts llmT parseT : Nat)
        (le : Option String) (lt : String) (lp : Option T)
        (t : String) (g : Nat) (v : T) (reason : Option String),
      generate_text env (attempts + 1) = .ok (t, g) →
      env.parse_fn t = .ok v →
      env.validate_fn v = (false, reason) →
      run_with_retry_aux env (fuel + 1) attempts llmT parseT le lt lp =
        run_with_retry_aux env fuel (attempts + 1) (llmT + g)
          (parseT + env.parseTime (attempts + 1)) (some (reasonOrDefault reason))
          t (some v)) ∧
    (∀ (T : Type) (env : LLMEnv T) (mr : Int),
      (∀ n, (∃ t, env.primary n = .ok t) ∨ (∃ t, env.fallback n = .ok t)) →
      ∃ res, run_with_retry env mr = .ok res) ∧
    (∀ (T : Type) (env : LLMEnv T) (mr : Int) (e : String),
      run_with_retry env mr = .error e →
      ∃ n e1, 1 ≤ n ∧ n ≤ mr.toNat ∧
        env.primary n = .error e1 ∧ env.fallback n = .error e) := by
  refine ⟨?_, ?_, ?_, ?_⟩
  · intro T env fuel attempts llmT parseT le lt lp t g e hgen hparse
    exact run_aux_parse_error env fuel attempts llmT parseT le lt lp hgen hparse
  · intro T env fuel attempts llmT parseT le lt lp t g v reason hgen hparse hval
    exact run_aux_reject env fuel attempts llmT parseT le lt lp hgen hparse hval
  · intro T env mr h
    exact run_aux_ok_of_gen_ok env (fun n => gen_ok_of_transport_ok (h n))
      mr.toNat 0 0 0 none "" none
  · intro T env mr e h
    obtain ⟨n, e1, h1, h2, h3, h4⟩ :=
      run_aux_error_transports env mr.toNat 0 0 0 none "" none e h
    exact ⟨n, e1, h1, by simpa using h2, h3, h4⟩

/-- Environment whose parser always raises but whose transport always
yields text. -/
def envC8a : LLMEnv Nat :=
  { primary := fun _ => .ok "x", fallback := fun _ => .error "down",
    genTime := fun _ => 1, parse_fn := fun _ => .error "bad json",
    validate_fn := fun _ => (true, none), parseTime := fun _ => 1 }

/-- Environment whose transports both always raise. -/
def envC8b : LLMEnv Nat :=
  { primary := fun _ => .error "primary down", fallback := fun _ => .error "fallback down",
    genTime := fun _ => 1, parse_fn := fun _ => .ok 0,
    validate_fn := fun _ => (true, none), parseTime := fun _ => 1 }

/-- Witness for C8: a parse exception on the first attempt of `envC8a` is
recorded and consumes one attempt, a validation rejection on the first
attempt of `envC7` is recorded and consumes one attempt, a permanently
failing parser never propagates, and a propagated error comes from an
attempt where both transports failed. -/
theorem C8_witness :
    (run_with_retry_aux envC8a 2 0 0 0 none "" none =
      run_with_retry_aux envC8a 1 1 1 1 (some ("解析异常: " ++ "bad json")) "x" none) ∧
    (run_with_retry_aux envC7 2 0 0 0 none "" none =
      run_with_retry_aux envC7 1 1 2 1 (some "invalid1") "a" (some "a")) ∧
    (∃ res, run_with_retry envC8a 3 = .ok res) ∧
    (∃ n e1, 1 ≤ n ∧ n ≤ (2 : Int).toNat ∧
      envC8b.primary n = .error e1 ∧ envC8b.fallback n = .error "fallback down") :=
  ⟨C8_failures_recorded_only_transport_exhaustion_propagates.1 Nat envC8a 1 0 0 0
      none "" none "x" 1 "bad json" rfl rfl,
   C8_failures_recorded_only_transport_exhaustion_propagates.2.1 String envC7 1 0 0 0
      none "" none "a" 2 "a" (some "invalid1") rfl rfl rfl,
   C8_failures_recorded_only_transport_exhaustion_propagates.2.2.1 Nat envC8a 3
      (fun _ => Or.inl ⟨"x", rfl⟩),
   C8_failures_recorded_only_transport_exhaustion_propagates.2.2.2 Nat envC8b 2
      "fallback down" rfl⟩

/-- The `LLMWorkflowResult` returned when the retry loop body never runs. -/
def zeroAttemptResult (T : Type) : LLMWorkflowResult T :=
  { success := false, parsed_result := none, response_text := "", attempts := 0,
    retry_count := 0, llm_time := 0, parse_time := 0, last_error := none }

/-- C10: with a non-positive retry budget, `run_with_retry` returns a
failure result with zero attempts, zero retry count, empty response, no
parsed value, no error and zero accumulated times — and since the result is
the same for every environment, it invokes neither the transports nor
`parse_fn` nor `validate_fn`. -/
theorem C10_nonpositive_budget :
    ∀ (T : Type) (env : LLMEnv T) (mr : Int), mr ≤ 0 →
      run_with_retry env mr = .ok (zeroAttemptResult T) := by
  intro T env mr h
  unfold run_with_retry
  rw [Int.toNat_of_nonpos h]
  rfl

/-- Witness for C10 at budget -5. -/
theorem C10_witness :
    (-5 : Int) ≤ 0 ∧ run_with_retry envC8a (-5) = .ok (zeroAttemptResult Nat) :=
  ⟨by decide, C10_nonpositive_budget Nat envC8a (-5) (by decide)⟩

end AnythingExtract
